import Mathlib

/-
Verification of the board-synchronization layer of the protochess client.

The React component ChessGame (source file src/unnamed/part_000) keeps a
canvas, two lookup maps (tile rects keyed by logical coordinate, piece
visuals keyed by piece id), and the tile sizes computed at mount time.
It delegates to two module-level collaborators, Board and PieceHandler,
whose sources are not part of the reviewed material; their operations are
modelled from the specification (each such definition carries a doc
comment starting with the words Modelled from the spec).  The Svelte page
_WebChess.svelte wires highlight state to two store subscriptions; its
two handlers are embedded separately at the end of the definitions.

Conventions of the embedding:
- JavaScript numbers are rationals; a possibly-missing numeric property
  is an Option, with none standing for an absent value (and for the NaN
  that arithmetic on an absent value produces).
- The mutable maps become association lists keyed by strings or by
  logical coordinates; module-level mutable state of Board and
  PieceHandler (tile sizes, the highlight bookkeeping, the piece map)
  is threaded explicitly, either as parameters set once at mount time
  or as fields of EngineState.
-/

/-- Lookup in an association list keyed by strings, as the JS Map.get. -/
def alookup {β : Type} : List (String × β) → String → Option β
  | [], _ => none
  | (k, v) :: l, id => if k = id then some v else alookup l id

/-- Removal from an association list keyed by strings, as the JS Map.delete
(the maps hold at most one entry per key, so filtering is deletion). -/
def eraseKey {β : Type} (l : List (String × β)) (id : String) : List (String × β) :=
  l.filter fun kv => kv.1 ≠ id

/-- Visual state of one piece group on the canvas: its fabric position
(the left and top properties) and whether dragging is disabled. -/
structure PieceVisual where
  left : ℚ
  top : ℚ
  locked : Bool
deriving DecidableEq, Repr

/-- PieceHandler.pieceMap: piece id to fabric group. -/
abbrev PieceMap := List (String × PieceVisual)

/-- Logical state of one piece as delivered by the external game state:
identity, logical board location, owning player. -/
structure Piece where
  id : String
  x : ℤ
  y : ℤ
  owner : ℕ
deriving DecidableEq, Repr

/-- Shape of the game-state snapshot consumed from the external store:
board dimensions (possibly absent on a malformed snapshot) and pieces. -/
structure GameStateJS where
  boardWidth : Option ℚ
  boardHeight : Option ℚ
  pieces : List Piece
deriving DecidableEq, Repr

/-- Props of the ChessGame component (the requestMove callback carries no
state and is omitted). -/
structure IProps where
  width : ℚ
  height : ℚ
  gameState : GameStateJS
  inverted : Option Bool
  playerNum : Option ℕ
deriving DecidableEq, Repr

/-- Fabric text object added by displayWinner.  The source positions every
such text at the canvas center (left 0, top 0, then center()), so the
position is the same for all of them and only content and fill remain. -/
structure FabText where
  content : String
  fill : String
deriving DecidableEq, Repr

/-- State of the component together with the module-level state of Board
and PieceHandler that it manipulates.  canvasTexts is none before the
canvas exists; tileWidth and tileHeight are the sizes computed at mount
time (none models the NaN of a division by an absent dimension);
tileMap is the set of tile keys with a rect; pieceMap is
PieceHandler.pieceMap, which the component field of the same name
aliases; lastMoveTiles is the last-move highlight bookkeeping of Board. -/
structure EngineState where
  canvasTexts : Option (List FabText) := none
  canvasWidth : ℚ := 0
  canvasHeight : ℚ := 0
  tileWidth : Option ℚ := none
  tileHeight : Option ℚ := none
  tileMap : List (ℤ × ℤ) := []
  pieceMap : PieceMap := []
  lastMoveTiles : List (ℤ × ℤ) := []
deriving DecidableEq, Repr

/-- Modelled from the spec: the forward coordinate mapping toScreen of
section 4 (the Board module that implements it is not in the reviewed
sources).  Scaling uses the tile sizes tw and th fixed at mount time;
inversion runs rows and columns in reverse order relative to the logical
coordinates, so that on an 8 by 8 board with 100 by 100 tiles the
logical origin maps to (0, 0) upright and to (700, 700) inverted. -/
def toScreen (inverted : Bool) (tw th : ℚ) (bw bh : ℤ) (x y : ℤ) : ℚ × ℚ :=
  if inverted then (((bw - 1 - x : ℤ) : ℚ) * tw, ((bh - 1 - y : ℤ) : ℚ) * th)
  else ((x : ℚ) * tw, (y : ℚ) * th)

/-- Modelled from the spec: Board.fabricPosToXY, the inverse mapping
toLogical of section 4 (the Board module is not in the reviewed sources).
A fabric position is divided by the tile size and floored back to a
logical coordinate, undoing the reversal when inverted. -/
def Board.fabricPosToXY (inverted : Bool) (tw th : ℚ) (bw bh : ℤ)
    (left top : ℚ) : ℤ × ℤ :=
  if inverted then (bw - 1 - ⌊left / tw⌋, bh - 1 - ⌊top / th⌋)
  else (⌊left / tw⌋, ⌊top / th⌋)

/-- Queue of the at most two most recently highlighted last-move tiles:
pushing a new tile drops the oldest entries beyond two. -/
def push2 {α : Type} : List α → α → List α
  | [], xy => [xy]
  | [a], xy => [a, xy]
  | _ :: a :: l, xy => push2 (a :: l) xy

/-- Modelled from the spec: Board.updateBoardHighlight (the Board module
is not in the reviewed sources).  The spec keeps the last-move highlight
on at most the two tiles touched by the most recent move, a new highlight
superseding older ones rather than accumulating; the tile being
highlighted therefore joins the bookkeeping queue and the oldest entries
beyond two lose their highlight.  The inverted flag only selects the rect
to recolor and does not affect which logical tiles are highlighted. -/
def Board.updateBoardHighlight (inverted : Bool) (st : EngineState)
    (x y : ℤ) : EngineState :=
  { st with lastMoveTiles := push2 st.lastMoveTiles (x, y) }

/-- Modelled from the spec: PieceHandler.updatePiece updates or inserts
the record for piece.id, placing its visual at the screen position of the
new logical location (the PieceHandler module is not in the reviewed
sources).  The lock state of an existing record is preserved; a fresh
record starts unlocked.  The game-state argument is passed by the caller
but plays no role in the repositioning. -/
def setPiecePos : PieceMap → String → ℚ → ℚ → PieceMap
  | [], id, l, t => [(id, ⟨l, t, false⟩)]
  | (k, g) :: rest, id, l, t =>
      if k = id then (k, ⟨l, t, g.locked⟩) :: rest
      else (k, g) :: setPiecePos rest id l t

/-- Modelled from the spec: PieceHandler.updatePiece, see setPiecePos. -/
def PieceHandler.updatePiece (inverted : Bool) (tw th : ℚ) (bw bh : ℤ)
    (gs : GameStateJS) (pm : PieceMap) (piece : Piece) : PieceMap :=
  let pos := toScreen inverted tw th bw bh piece.x piece.y
  setPiecePos pm piece.id pos.1 pos.2

/-- ChessGame.updatePiece (source lines 60 to 71): when the piece already
has a group in PieceHandler.pieceMap, its prior logical location is
recovered from the visual position with Board.fabricPosToXY and that tile
receives the last-move highlight; then PieceHandler.updatePiece moves or
inserts the piece, and the destination tile receives the last-move
highlight.  The tile sizes tw, th and board dimensions bw, bh are the
module-level values fixed when Board and PieceHandler were initialized. -/
def ChessGame.updatePiece (inverted : Bool) (tw th : ℚ) (bw bh : ℤ)
    (gs : GameStateJS) (st : EngineState) (piece : Piece) : EngineState :=
  let st1 :=
    match alookup st.pieceMap piece.id with
    | some group =>
        let oldXY := Board.fabricPosToXY inverted tw th bw bh group.left group.top
        Board.updateBoardHighlight inverted st oldXY.1 oldXY.2
    | none => st
  let st2 := { st1 with
    pieceMap := PieceHandler.updatePiece inverted tw th bw bh gs st1.pieceMap piece }
  Board.updateBoardHighlight inverted st2 piece.x piece.y

/-- Fold of ChessGame.updatePiece over a sequence of piece updates. -/
def applyMoves (inverted : Bool) (tw th : ℚ) (bw bh : ℤ) (gs : GameStateJS)
    (st : EngineState) (ps : List Piece) : EngineState :=
  ps.foldl (ChessGame.updatePiece inverted tw th bw bh gs) st

/-- Division as it appears in componentDidMount: dividing by an absent
dimension yields NaN and dividing by zero yields an infinity, neither of
which is a usable tile size; both are collapsed to none. -/
def jsDiv (w : ℚ) (d : Option ℚ) : Option ℚ :=
  match d with
  | none => none
  | some q => if q = 0 then none else some (w / q)

/-- ChessGame.componentDidMount (source lines 36 to 58): creates and
sizes the canvas, computes the tile sizes as canvas width over board
width and canvas height over board height, and hands them to Board.init
and PieceHandler.init; the recorded tileWidth and tileHeight are exactly
the values those initializers receive.  No validation of the snapshot is
performed anywhere in the function. -/
def ChessGame.componentDidMount (props : IProps) (st : EngineState) : EngineState :=
  { st with
      canvasTexts := some []
      canvasWidth := props.width
      canvasHeight := props.height
      tileWidth := jsDiv props.width props.gameState.boardWidth
      tileHeight := jsDiv props.height props.gameState.boardHeight }

/-- Width or height of the board as a natural number, zero when the
dimension is absent from the snapshot. -/
def dimNat (d : Option ℚ) : ℕ :=
  match d with
  | none => 0
  | some q => q.floor.toNat

/-- Modelled from the spec: Board.loadBoard builds exactly one tile rect
per TileKey of the board, keyed by logical coordinate (the Board module
is not in the reviewed sources).  The orientation flag picks where each
rect is drawn but not which keys exist. -/
def Board.loadBoard (inverted : Bool) (gs : GameStateJS) : List (ℤ × ℤ) :=
  ((List.range (dimNat gs.boardWidth)).map fun x =>
    (List.range (dimNat gs.boardHeight)).map fun y => ((x : ℤ), (y : ℤ))).flatten

/-- Modelled from the spec: PieceHandler.loadPieces builds one record per
piece of the game state, placed at the screen position of its logical
location under the current orientation (the PieceHandler module is not in
the reviewed sources).  The spec fixes no initial lock state; records
start unlocked, which no claim depends on. -/
def PieceHandler.loadPieces (playerNum : ℕ) (inverted : Bool) (tw th : ℚ)
    (gs : GameStateJS) : PieceMap :=
  gs.pieces.map fun p =>
    let pos := toScreen inverted tw th (dimNat gs.boardWidth : ℤ)
      (dimNat gs.boardHeight : ℤ) p.x p.y
    (p.id, ⟨pos.1, pos.2, false⟩)

/-- Modelled from the spec: PieceHandler.deleteAllPieces removes every
piece visual and clears the piece map (full teardown step). -/
def PieceHandler.deleteAllPieces (st : EngineState) : EngineState :=
  { st with pieceMap := [] }

/-- Modelled from the spec: Board.deleteAll removes every tile rect, and
with them every highlight they carried (full teardown step). -/
def Board.deleteAll (st : EngineState) : EngineState :=
  { st with tileMap := [], lastMoveTiles := [] }

/-- ChessGame.componentDidUpdate (source lines 22 to 34): when playerNum
and inverted are both non-null and inverted differs from its previous
value, all piece and tile visuals are torn down and both maps are rebuilt
from the current game state; in every other case nothing happens.  The
tile sizes tw and th are the module-level values fixed at mount time. -/
def ChessGame.componentDidUpdate (tw th : ℚ) (prevProps props : IProps)
    (st : EngineState) : EngineState :=
  match props.playerNum, props.inverted with
  | some pn, some inv =>
      if some inv ≠ prevProps.inverted then
        let st1 := PieceHandler.deleteAllPieces st
        let st2 := Board.deleteAll st1
        { st2 with
            tileMap := Board.loadBoard inv props.gameState
            pieceMap := PieceHandler.loadPieces pn inv tw th props.gameState }
      else st
  | _, _ => st

/-- Modelled from the spec: PieceHandler.deletePiece removes the record
and visual for piece.id, and is a no-op when the id is absent (the
PieceHandler module is not in the reviewed sources). -/
def PieceHandler.deletePiece (st : EngineState) (piece : Piece) : EngineState :=
  { st with pieceMap := eraseKey st.pieceMap piece.id }

/-- ChessGame.deletePiece (source lines 73 to 75): delegates to
PieceHandler.deletePiece. -/
def ChessGame.deletePiece (st : EngineState) (piece : Piece) : EngineState :=
  PieceHandler.deletePiece st piece

/-- Modelled from the spec: PieceHandler.lockAllPieces sets the
interaction lock of every record regardless of owner (the PieceHandler
module is not in the reviewed sources). -/
def PieceHandler.lockAllPieces (st : EngineState) : EngineState :=
  { st with pieceMap := st.pieceMap.map fun kv => (kv.1, { kv.2 with locked := true }) }

/-- ChessGame.lockAllPieces (source lines 77 to 79): accepts a playerNum
argument but calls PieceHandler.lockAllPieces with no arguments, so the
parameter is never consulted. -/
def ChessGame.lockAllPieces (playerNum : ℕ) (st : EngineState) : EngineState :=
  PieceHandler.lockAllPieces st

/-- Text object built by displayWinner for a given player number. -/
def winnerText (playerNum : ℕ) : FabText :=
  ⟨toString playerNum ++ " wins!", "black"⟩

/-- ChessGame.displayWinner (source lines 90 to 101): when the canvas
exists, constructs a fresh centered text object announcing the winner and
adds it to the canvas; nothing is removed or replaced first.  Without a
canvas it does nothing. -/
def ChessGame.displayWinner (playerNum : ℕ) (st : EngineState) : EngineState :=
  match st.canvasTexts with
  | some ts => { st with canvasTexts := some (ts ++ [winnerText playerNum]) }
  | none => st

/-- Highlight record of the Svelte page _WebChess.svelte: the in-check
payload, the legal-move-preview layer and the last-move layer.  The
payload types are opaque to the handlers and stay abstract. -/
structure Highlighted (α β γ : Type) where
  in_check_kings : Option α
  possibleMoves : Option β
  lastTurn : Option γ
deriving DecidableEq, Repr

/-- Fields of a GameInfo store message that the subscription reads. -/
structure GameInfoMsg (α γ : Type) where
  in_check_kings : Option α
  last_turn : Option γ
deriving DecidableEq, Repr

/-- MovesFrom.subscribe handler (_WebChess.svelte lines 15 to 18): stores
the incoming legal-move-preview payload and sets lastTurn to null. -/
def onMovesFrom {α β γ : Type} (h : Highlighted α β γ) (e : Option β) :
    Highlighted α β γ :=
  { h with lastTurn := none, possibleMoves := e }

/-- GameInfo.subscribe handler (_WebChess.svelte lines 21 to 24): replaces
the whole highlight record, taking in_check_kings and last_turn from the
message and setting possibleMoves to null. -/
def onGameInfo {α β γ : Type} (v : GameInfoMsg α γ) : Highlighted α β γ :=
  { in_check_kings := v.in_check_kings, possibleMoves := none, lastTurn := v.last_turn }

/-- Game state with an 8 by 8 board and no pieces, for concrete runs. -/
def exGs : GameStateJS := ⟨some 8, some 8, []⟩

/-- Engine state holding one piece p1 at the screen origin. -/
def exSt : EngineState := { pieceMap := [("p1", ⟨0, 0, false⟩)] }

/-- Props whose snapshot lacks board.width. -/
def badProps : IProps := ⟨800, 800, ⟨none, some 8, []⟩, some false, some 0⟩

/-- Props with a well-formed 8 by 8 snapshot on an 800 by 800 canvas. -/
def goodProps : IProps := ⟨800, 800, exGs, some false, some 0⟩

/-- Engine state with a mounted, empty canvas. -/
def exCanvasSt : EngineState := { canvasTexts := some [] }

/-- Looking up the key that eraseKey removed yields nothing. -/
theorem alookup_eraseKey {β : Type} (l : List (String × β)) (id : String) :
    alookup (eraseKey l id) id = none := by
  induction l with
  | nil => rfl
  | cons kv rest ih =>
      by_cases h : kv.1 = id <;> simp [eraseKey, List.filter, h, alookup] at ih ⊢ <;>
        simpa [eraseKey, alookup, h] using ih

/-- Removing an absent key leaves the association list unchanged. -/
theorem eraseKey_of_alookup_none {β : Type} (l : List (String × β)) (id : String)
    (h : alookup l id = none) : eraseKey l id = l := by
  induction l with
  | nil => rfl
  | cons kv rest ih =>
      rcases kv with ⟨k, v⟩
      by_cases hk : k = id
      · simp [alookup, hk] at h
      · simp [alookup, hk] at h
        simp [eraseKey, List.filter, hk] at ih ⊢
        simpa [eraseKey, List.filter, hk] using ih h

/-- Pushing onto the highlight queue keeps it at two entries or fewer. -/
theorem push2_length {α : Type} : ∀ (l : List α) (xy : α), (push2 l xy).length ≤ 2
  | [], _ => by simp [push2]
  | [a], _ => by simp [push2]
  | _ :: a :: l, xy => by simpa [push2] using push2_length (a :: l) xy

/-- Two consecutive pushes leave exactly the two pushed entries, whatever
was in the queue before. -/
theorem push2_push2 {α : Type} : ∀ (l : List α) (o d : α), push2 (push2 l o) d = [o, d]
  | [], _, _ => rfl
  | [a], _, _ => rfl
  | _ :: a :: l, o, d => by simpa [push2] using push2_push2 (a :: l) o d

/-- An update of a piece already present highlights exactly the recovered
prior tile and the destination, superseding whatever was highlighted. -/
theorem updatePiece_lastMove_of_present (inverted : Bool) (tw th : ℚ) (bw bh : ℤ)
    (gs : GameStateJS) (st : EngineState) (p : Piece) (g : PieceVisual)
    (hg : alookup st.pieceMap p.id = some g) :
    (ChessGame.updatePiece inverted tw th bw bh gs st p).lastMoveTiles
      = [Board.fabricPosToXY inverted tw th bw bh g.left g.top, (p.x, p.y)] := by
  unfold ChessGame.updatePiece Board.updateBoardHighlight
  simp [hg, push2_push2]

/-- An update of an absent piece only pushes the destination tile. -/
theorem updatePiece_lastMove_of_absent (inverted : Bool) (tw th : ℚ) (bw bh : ℤ)
    (gs : GameStateJS) (st : EngineState) (p : Piece)
    (hg : alookup st.pieceMap p.id = none) :
    (ChessGame.updatePiece inverted tw th bw bh gs st p).lastMoveTiles
      = push2 st.lastMoveTiles (p.x, p.y) := by
  unfold ChessGame.updatePiece Board.updateBoardHighlight
  simp [hg]

/-- Every single update leaves at most two highlighted tiles. -/
theorem updatePiece_lastMove_len (inverted : Bool) (tw th : ℚ) (bw bh : ℤ)
    (gs : GameStateJS) (st : EngineState) (p : Piece) :
    (ChessGame.updatePiece inverted tw th bw bh gs st p).lastMoveTiles.length ≤ 2 := by
  unfold ChessGame.updatePiece Board.updateBoardHighlight
  cases alookup st.pieceMap p.id <;> simp [push2_length]

/-- Along any update sequence the highlighted tiles stay at two or fewer. -/
theorem applyMoves_lastMove_len (inverted : Bool) (tw th : ℚ) (bw bh : ℤ)
    (gs : GameStateJS) : ∀ (qs : List Piece) (st : EngineState),
    st.lastMoveTiles.length ≤ 2 →
    (applyMoves inverted tw th bw bh gs st qs).lastMoveTiles.length ≤ 2
  | [], st, hlen => by simpa [applyMoves] using hlen
  | q :: rest, st, hlen => by
      have h1 : applyMoves inverted tw th bw bh gs st (q :: rest)
          = applyMoves inverted tw th bw bh gs
              (ChessGame.updatePiece inverted tw th bw bh gs st q) rest := by
        simp [applyMoves]
      rw [h1]
      exact applyMoves_lastMove_len inverted tw th bw bh gs rest _
        (updatePiece_lastMove_len inverted tw th bw bh gs st q)

/-- C1 (amended): along any sequence of updatePiece calls starting from a
state with at most two highlighted tiles, at most two tiles ever carry
the last-move highlight; and whenever the final call concerns a piece
already present in the piece map, the highlighted tiles afterwards are
exactly that call's origin, recovered from the prior visual position of
the piece, followed by its destination.  The original claim is refuted by
updatePiece_insert_stale_highlight: a call that inserts an absent piece
pushes only its destination, so a tile of the preceding move stays lit. -/
theorem lastMove_highlight_sync (inverted : Bool) (tw th : ℚ) (bw bh : ℤ)
    (gs : GameStateJS) (st : EngineState) (ps : List Piece) (p : Piece) (g : PieceVisual)
    (hlen : st.lastMoveTiles.length ≤ 2)
    (hg : alookup (applyMoves inverted tw th bw bh gs st ps).pieceMap p.id = some g) :
    (applyMoves inverted tw th bw bh gs st (ps ++ [p])).lastMoveTiles
        = [Board.fabricPosToXY inverted tw th bw bh g.left g.top, (p.x, p.y)]
    ∧ ∀ qs : List Piece,
        (applyMoves inverted tw th bw bh gs st qs).lastMoveTiles.length ≤ 2 := by
  constructor
  · have h1 : applyMoves inverted tw th bw bh gs st (ps ++ [p])
        = ChessGame.updatePiece inverted tw th bw bh gs
            (applyMoves inverted tw th bw bh gs st ps) p := by
      simp [applyMoves]
    rw [h1]
    exact updatePiece_lastMove_of_present inverted tw th bw bh gs _ p g hg
  · exact fun qs => applyMoves_lastMove_len inverted tw th bw bh gs qs st hlen

/-- C1 (witness): moving the present piece p1 from its tile (0, 0) to
(3, 4) highlights exactly origin (0, 0) and destination (3, 4). -/
theorem lastMove_highlight_sync_witness :
    (applyMoves false 100 100 8 8 exGs exSt [⟨"p1", 3, 4, 0⟩]).lastMoveTiles
      = [(0, 0), (3, 4)] := by
  have h := lastMove_highlight_sync false 100 100 8 8 exGs exSt [] ⟨"p1", 3, 4, 0⟩
    ⟨0, 0, false⟩ (by decide) (by decide)
  simpa [Board.fabricPosToXY] using h.1

/-- C1 (counterexample to the original claim): after moving p1 so that
tiles (0, 0) and (1, 1) are highlighted, a further updatePiece call for
the absent piece p2 with destination (5, 5) leaves tiles (1, 1) and
(5, 5) highlighted; tile (1, 1) belongs to the earlier move and is
neither an origin nor the destination of the most recent call, so the
highlighted tiles are not exactly the last move's origin and
destination. -/
theorem updatePiece_insert_stale_highlight :
    (applyMoves false 100 100 8 8 exGs exSt
        [⟨"p1", 1, 1, 0⟩, ⟨"p2", 5, 5, 0⟩]).lastMoveTiles = [(1, 1), (5, 5)]
    ∧ alookup (applyMoves false 100 100 8 8 exGs exSt
        [⟨"p1", 1, 1, 0⟩]).pieceMap "p2" = none
    ∧ ((1 : ℤ), (1 : ℤ)) ≠ ((5 : ℤ), (5 : ℤ)) :=
  ⟨by decide, by decide, by decide⟩

/-- C2: the inverse coordinate mapping undoes the forward mapping for
every valid logical coordinate under both orientations; the mapping is a
pure function of its arguments in this embedding, so identical inputs
yield identical outputs by construction. -/
theorem fabricPosToXY_toScreen_roundTrip (inverted : Bool) (tw th : ℚ) (bw bh x y : ℤ)
    (hx : 0 ≤ x ∧ x < bw) (hy : 0 ≤ y ∧ y < bh) (htw : 0 < tw) (hth : 0 < th) :
    Board.fabricPosToXY inverted tw th bw bh
      (toScreen inverted tw th bw bh x y).1 (toScreen inverted tw th bw bh x y).2
      = (x, y) := by
  cases inverted <;>
    simp [toScreen, Board.fabricPosToXY, mul_div_cancel_right₀, htw.ne', hth.ne',
      Int.floor_intCast]

/-- C2 (witness): on an 8 by 8 board with 100 by 100 tiles, the inverted
image of the logical origin is (700, 700) and maps back to (0, 0). -/
theorem fabricPosToXY_toScreen_roundTrip_witness :
    Board.fabricPosToXY true 100 100 8 8
      (toScreen true 100 100 8 8 0 0).1 (toScreen true 100 100 8 8 0 0).2 = (0, 0) :=
  fabricPosToXY_toScreen_roundTrip true 100 100 8 8 0 0 ⟨by decide, by decide⟩
    ⟨by decide, by decide⟩ (by norm_num) (by norm_num)

/-- C3: an orientation change has an effect only when the incoming
inverted value differs from the previous one; in particular a call with
an equal value leaves the whole state, the piece map included, unchanged.
When it does take effect (non-null playerNum and inverted, differing
inverted), every piece and tile visual is torn down and both maps are
rebuilt from the current game state: the resulting tile map and piece map
are exactly the freshly loaded ones and no stale highlight survives. -/
theorem componentDidUpdate_orientation (tw th : ℚ) (prevProps props : IProps)
    (st : EngineState) :
    (props.inverted = prevProps.inverted →
      ChessGame.componentDidUpdate tw th prevProps props st = st)
    ∧ (∀ (pn : ℕ) (inv : Bool), props.playerNum = some pn →
        props.inverted = some inv → some inv ≠ prevProps.inverted →
        (ChessGame.componentDidUpdate tw th prevProps props st).tileMap
            = Board.loadBoard inv props.gameState
        ∧ (ChessGame.componentDidUpdate tw th prevProps props st).pieceMap
            = PieceHandler.loadPieces pn inv tw th props.gameState
        ∧ (ChessGame.componentDidUpdate tw th prevProps props st).lastMoveTiles = []) := by
  constructor
  · intro heq
    cases hp : props.playerNum with
    | none => simp [ChessGame.componentDidUpdate, hp]
    | some pn =>
        cases hi : props.inverted with
        | none => simp [ChessGame.componentDidUpdate, hp, hi]
        | some inv =>
            rw [hi] at heq
            simp [ChessGame.componentDidUpdate, hp, hi, ← heq]
  · intro pn inv hpn hi hne
    simp [ChessGame.componentDidUpdate, hpn, hi, hne, PieceHandler.deleteAllPieces,
      Board.deleteAll]

/-- C3 (witness): an update whose inverted prop equals the previous one
leaves the state untouched. -/
theorem componentDidUpdate_orientation_witness :
    ChessGame.componentDidUpdate 100 100 goodProps goodProps exSt = exSt :=
  (componentDidUpdate_orientation 100 100 goodProps goodProps exSt).1 rfl

/-- C4 (counterexample to the original claim): mounting with a snapshot
whose board.width is absent raises no configuration error; the mount
completes, the canvas is created, the height-derived tile size is even
computed as 100, and the width-derived tile size handed to the
initializers is the undefined value none. -/
theorem componentDidMount_missing_width_proceeds :
    (ChessGame.componentDidMount badProps {}).tileWidth = none
    ∧ (ChessGame.componentDidMount badProps {}).tileHeight = some 100
    ∧ (ChessGame.componentDidMount badProps {}).canvasTexts = some [] := by
  refine ⟨rfl, ?_, rfl⟩
  simp [ChessGame.componentDidMount, badProps, jsDiv]
  norm_num

/-- C4 (amended): when board.width or board.height is missing from the
snapshot, mounting does not fail fast; it completes, creating the canvas,
and the corresponding tile size is the undefined value none, which is
what Board.init and PieceHandler.init receive. -/
theorem componentDidMount_missing_dims (props : IProps) (st : EngineState)
    (h : props.gameState.boardWidth = none ∨ props.gameState.boardHeight = none) :
    ((ChessGame.componentDidMount props st).tileWidth = none
      ∨ (ChessGame.componentDidMount props st).tileHeight = none)
    ∧ (ChessGame.componentDidMount props st).canvasTexts = some [] := by
  rcases h with h | h
  · exact ⟨Or.inl (by simp [ChessGame.componentDidMount, jsDiv, h]), rfl⟩
  · exact ⟨Or.inr (by simp [ChessGame.componentDidMount, jsDiv, h]), rfl⟩

/-- C4 (witness): the amended statement at the concrete malformed props. -/
theorem componentDidMount_missing_dims_witness :
    ((ChessGame.componentDidMount badProps {}).tileWidth = none
      ∨ (ChessGame.componentDidMount badProps {}).tileHeight = none)
    ∧ (ChessGame.componentDidMount badProps {}).canvasTexts = some [] :=
  componentDidMount_missing_dims badProps {} (Or.inl rfl)

/-- C5 (counterexample to the original claim): from a state whose
last-move layer holds a value, the MovesFrom handler (the legal-move
preview) sets lastTurn to null, and from a state whose preview layer
holds a value, the GameInfo handler (the last-move update) sets
possibleMoves to null; each layer clears the other. -/
theorem highlight_layers_not_independent :
    (onMovesFrom (⟨none, some 3, some 7⟩ : Highlighted ℕ ℕ ℕ) (some 1)).lastTurn = none
    ∧ (⟨none, some 3, some 7⟩ : Highlighted ℕ ℕ ℕ).lastTurn = some 7
    ∧ (onGameInfo (⟨none, some 9⟩ : GameInfoMsg ℕ ℕ) : Highlighted ℕ ℕ ℕ).possibleMoves
        = none
    ∧ (⟨none, some 3, some 7⟩ : Highlighted ℕ ℕ ℕ).possibleMoves = some 3 :=
  ⟨rfl, rfl, rfl, rfl⟩

/-- C5 (amended): the two highlight layers are mutually clearing, not
independent: every MovesFrom event stores the preview payload and nulls
the last-move layer, and every GameInfo update stores the last move and
nulls the preview layer. -/
theorem highlight_layers_coupled (α β γ : Type) (h : Highlighted α β γ)
    (e : Option β) (v : GameInfoMsg α γ) :
    (onMovesFrom h e).lastTurn = none
    ∧ (onMovesFrom h e).possibleMoves = e
    ∧ (onGameInfo v : Highlighted α β γ).possibleMoves = none
    ∧ (onGameInfo v : Highlighted α β γ).lastTurn = v.last_turn :=
  ⟨rfl, rfl, rfl, rfl⟩

/-- C6: mounting computes the tile sizes as canvas width over board width
and canvas height over board height whenever both dimensions are present
and non-zero. -/
theorem componentDidMount_tileSize (props : IProps) (st : EngineState) (bw bh : ℚ)
    (hbw : props.gameState.boardWidth = some bw)
    (hbh : props.gameState.boardHeight = some bh)
    (hbw0 : bw ≠ 0) (hbh0 : bh ≠ 0) :
    (ChessGame.componentDidMount props st).tileWidth = some (props.width / bw)
    ∧ (ChessGame.componentDidMount props st).tileHeight = some (props.height / bh) := by
  simp [ChessGame.componentDidMount, jsDiv, hbw, hbh, hbw0, hbh0]

/-- C6 (witness): an 8 by 8 board on an 800 by 800 canvas yields tiles of
size 100 by 100. -/
theorem componentDidMount_tileSize_witness :
    (ChessGame.componentDidMount goodProps {}).tileWidth = some 100
    ∧ (ChessGame.componentDidMount goodProps {}).tileHeight = some 100 := by
  obtain ⟨h1, h2⟩ := componentDidMount_tileSize goodProps {} 8 8 rfl rfl
    (by norm_num) (by norm_num)
  exact ⟨by rw [h1]; norm_num [goodProps], by rw [h2]; norm_num [goodProps]⟩

/-- C7: deleting a piece whose id is absent from the piece map changes
nothing (and, the embedding being a total function, raises nothing);
after any delete the id is gone from the piece map. -/
theorem deletePiece_absent_noop (st : EngineState) (piece : Piece) :
    (alookup st.pieceMap piece.id = none → ChessGame.deletePiece st piece = st)
    ∧ alookup (ChessGame.deletePiece st piece).pieceMap piece.id = none := by
  constructor
  · intro h
    simp [ChessGame.deletePiece, PieceHandler.deletePiece,
      eraseKey_of_alookup_none st.pieceMap piece.id h]
  · simp [ChessGame.deletePiece, PieceHandler.deletePiece, alookup_eraseKey]

/-- C7 (witness): deleting the never-inserted id ghost from a state
holding only p1 changes nothing. -/
theorem deletePiece_absent_noop_witness :
    ChessGame.deletePiece exSt ⟨"ghost", 0, 0, 0⟩ = exSt
    ∧ alookup exSt.pieceMap "ghost" = none :=
  ⟨(deletePiece_absent_noop exSt ⟨"ghost", 0, 0, 0⟩).1 (by decide), by decide⟩

/-- C8 (counterexample to the original claim): on a mounted empty canvas,
calling displayWinner twice with the same player leaves a different
canvas state than calling it once, since each call adds a fresh text
object. -/
theorem displayWinner_not_idempotent :
    ChessGame.displayWinner 0 (ChessGame.displayWinner 0 exCanvasSt)
      ≠ ChessGame.displayWinner 0 exCanvasSt := by
  decide

/-- C8 (amended): displayWinner is not idempotent at the object level:
when the canvas exists each call appends one winner text, so two calls
with the same player leave two equal overlapping text objects where one
call leaves one; the visible content of the extra object duplicates the
first. -/
theorem displayWinner_appends (n : ℕ) (st : EngineState) (ts : List FabText)
    (h : st.canvasTexts = some ts) :
    ChessGame.displayWinner n st
        = { st with canvasTexts := some (ts ++ [winnerText n]) }
    ∧ ChessGame.displayWinner n (ChessGame.displayWinner n st)
        = { st with canvasTexts := some (ts ++ [winnerText n, winnerText n]) } := by
  constructor
  · simp [ChessGame.displayWinner, h]
  · simp [ChessGame.displayWinner, h]

/-- C8 (witness): the amended statement on the mounted empty canvas. -/
theorem displayWinner_appends_witness :
    ChessGame.displayWinner 0 exCanvasSt
        = { exCanvasSt with canvasTexts := some [winnerText 0] }
    ∧ ChessGame.displayWinner 0 (ChessGame.displayWinner 0 exCanvasSt)
        = { exCanvasSt with canvasTexts := some [winnerText 0, winnerText 0] } := by
  simpa using displayWinner_appends 0 exCanvasSt [] rfl

/-- C9: the playerNum argument of ChessGame.lockAllPieces is never
consulted; any two argument values produce identical states from any
starting state. -/
theorem lockAllPieces_arg_independent (p1 p2 : ℕ) (st : EngineState) :
    ChessGame.lockAllPieces p1 st = ChessGame.lockAllPieces p2 st := rfl

/-- C10: when playerNum is null or inverted is null, an update performs
no rebuild even if the inverted prop changed: the state, tile map and
piece map included, is returned unchanged. -/
theorem componentDidUpdate_null_props_noop (tw th : ℚ) (prevProps props : IProps)
    (st : EngineState)
    (h : props.playerNum = none ∨ props.inverted = none) :
    ChessGame.componentDidUpdate tw th prevProps props st = st := by
  rcases h with h | h
  · simp [ChessGame.componentDidUpdate, h]
  · cases hp : props.playerNum <;> simp [ChessGame.componentDidUpdate, hp, h]

/-- C10 (witness): an update that flips inverted but has a null playerNum
leaves the state unchanged. -/
theorem componentDidUpdate_null_props_noop_witness :
    ChessGame.componentDidUpdate 100 100 goodProps
      ⟨800, 800, exGs, some true, none⟩ exSt = exSt :=
  componentDidUpdate_null_props_noop 100 100 goodProps
    ⟨800, 800, exGs, some true, none⟩ exSt (Or.inl rfl)
